import Mathlib

/-!
Verification of the SuperchargedNotes backend (src/backend) against its
natural-language specification.

The Python source is shallowly embedded: strings become `List Char`,
`json.loads` becomes an executable fuelled recursive-descent parser
returning `Option JsonVal`, endpoint handlers become pure functions over an
explicit database value plus oracles for the external AI provider, and
raised `HTTPException`s become error constructors of explicit result types.
Every definition is transcribed from the cited source lines.
-/

set_option maxRecDepth 65536

namespace SuperNotes

/-- Convert a string literal to the `List Char` representation used
throughout the embedding. -/
def chars (s : String) : List Char := s.toList

/-! ## Generic string helpers (Python `str` operations) -/

/-- Whitespace recognised by Python's `str.strip()` and by `\s` in `re`
patterns, restricted to the ASCII range (the non-ASCII Unicode whitespace
cases are irrelevant to every input considered here). -/
def isPyWs (c : Char) : Bool :=
  c = ' ' || c = '\t' || c = '\n' || c = '\x0d' || c = '\x0b' || c = '\x0c'

/-- Python `str.strip()`: drop leading and trailing whitespace. -/
def pyStrip (s : List Char) : List Char :=
  ((s.dropWhile isPyWs).reverse.dropWhile isPyWs).reverse

/-- Python `pat in s` for strings: does `pat` occur as a contiguous
substring of `s`? -/
def containsSub (pat : List Char) : List Char → Bool
  | [] => pat.isEmpty
  | s@(_ :: rest) => pat.isPrefixOf s || containsSub pat rest

/-- Fuelled worker for `replaceAll`. -/
def replaceAllAux (pat repl : List Char) : Nat → List Char → List Char
  | 0, s => s
  | _ + 1, [] => []
  | fuel + 1, s@(c :: rest) =>
    if pat ≠ [] ∧ pat.isPrefixOf s then
      repl ++ replaceAllAux pat repl fuel (s.drop pat.length)
    else
      c :: replaceAllAux pat repl fuel rest

/-- Python `s.replace(pat, repl)` for a non-empty `pat`: replace every
occurrence left to right, non-overlapping. -/
def replaceAll (pat repl s : List Char) : List Char :=
  replaceAllAux pat repl s.length s

/-! ## The escape-repair pass

Transcribed from `flashcards.py` lines 273-279 (identical code at
`quizzes.py` lines 280-286):

    json_text = json_text.replace("\\\\", "##DOUBLE_BACKSLASH##")
    json_text = re.sub(r'([^\\])\\([^\\/"bfnrt])', r'\1\\\\\2', json_text)
    json_text = json_text.replace("##DOUBLE_BACKSLASH##", "\\\\\\\\")

In actual characters: first every two-backslash pair is replaced by the
sentinel token, then every single backslash preceded by a non-backslash and
followed by a character outside `\\ / " b f n r t` is doubled, and finally
every sentinel is replaced by FOUR backslash characters (the Python literal
`"\\\\\\\\"` denotes four backslashes). -/

/-- The sentinel token used by the repair pass. -/
def sentinel : List Char := chars "##DOUBLE_BACKSLASH##"

/-- The character class `[^\\/"bfnrt]` of the repair regex is the complement
of this set.  Note that `u` is NOT in the set. -/
def regexEscSet : List Char := ['\\', '/', '"', 'b', 'f', 'n', 'r', 't']

/-- The middle `re.sub` of the repair pass: scanning left to right, a
three-character window `c \ d` with `c ≠ \` and `d` outside
`regexEscSet` is rewritten to `c \ \ d`, and scanning resumes after the
window (non-overlapping matches, as in Python `re.sub`). -/
def escapeSingles : List Char → List Char
  | [] => []
  | c :: '\\' :: d :: rest2 =>
    if c ≠ '\\' ∧ ¬ (d ∈ regexEscSet) then
      c :: '\\' :: '\\' :: d :: escapeSingles rest2
    else
      c :: escapeSingles ('\\' :: d :: rest2)
  | c :: rest => c :: escapeSingles rest

/-- Four backslash characters: the text the sentinel is restored to. -/
def fourBackslashes : List Char := ['\\', '\\', '\\', '\\']

/-- The full escape-repair pass (`flashcards.py` 273-279). -/
def escapeRepair (s : List Char) : List Char :=
  replaceAll sentinel fourBackslashes
    (escapeSingles (replaceAll ['\\', '\\'] sentinel s))

/-! ## JSON values and a model of Python `json.loads`

Both create endpoints hand the repaired text to `json.loads`
(`flashcards.py` 281, `quizzes.py` 288).  We model the parser executably.
JSON numbers with a fraction or exponent become Python floats; since no
claim concerns float values, such numbers are represented by their lexeme.
Lone UTF-16 surrogates in `\uXXXX` escapes (which CPython tolerates) are
rejected here, a deviation in a corner no claim touches. -/

inductive JsonVal where
  | null
  | bool (b : Bool)
  | int (n : Int)
  | float (lexeme : List Char)
  | str (s : List Char)
  | arr (elems : List JsonVal)
  | obj (fields : List (List Char × JsonVal))

/-- JSON inter-token whitespace accepted by `json.loads`. -/
def isJsonWs (c : Char) : Bool :=
  c = ' ' || c = '\t' || c = '\n' || c = '\x0d'

/-- Skip JSON whitespace. -/
def skipWs : List Char → List Char
  | c :: rest => if isJsonWs c then skipWs rest else c :: rest
  | [] => []

/-- Value of a hexadecimal digit. -/
def hexDigitVal (c : Char) : Option Nat :=
  if '0' ≤ c ∧ c ≤ '9' then some (c.toNat - 48)
  else if 'a' ≤ c ∧ c ≤ 'f' then some (c.toNat - 87)
  else if 'A' ≤ c ∧ c ≤ 'F' then some (c.toNat - 55)
  else none

/-- Read four hexadecimal digits. -/
def parseHex4 : List Char → Option (Nat × List Char)
  | a :: b :: c :: d :: rest =>
    match hexDigitVal a, hexDigitVal b, hexDigitVal c, hexDigitVal d with
    | some x, some y, some z, some w => some (((x * 16 + y) * 16 + z) * 16 + w, rest)
    | _, _, _, _ => none
  | _ => none

/-- Body of a JSON string, after the opening quote.  Returns the decoded
characters and the remainder after the closing quote.  Unescaped control
characters and invalid escapes are rejected, as in strict `json.loads`. -/
def parseStringBody : Nat → List Char → Option (List Char × List Char)
  | 0, _ => none
  | _ + 1, [] => none
  | _ + 1, '"' :: rest => some ([], rest)
  | fuel + 1, '\\' :: esc =>
    match esc with
    | '"' :: rest => (parseStringBody fuel rest).map fun p => ('"' :: p.1, p.2)
    | '\\' :: rest => (parseStringBody fuel rest).map fun p => ('\\' :: p.1, p.2)
    | '/' :: rest => (parseStringBody fuel rest).map fun p => ('/' :: p.1, p.2)
    | 'b' :: rest => (parseStringBody fuel rest).map fun p => ('\x08' :: p.1, p.2)
    | 'f' :: rest => (parseStringBody fuel rest).map fun p => ('\x0c' :: p.1, p.2)
    | 'n' :: rest => (parseStringBody fuel rest).map fun p => ('\n' :: p.1, p.2)
    | 'r' :: rest => (parseStringBody fuel rest).map fun p => ('\x0d' :: p.1, p.2)
    | 't' :: rest => (parseStringBody fuel rest).map fun p => ('\t' :: p.1, p.2)
    | 'u' :: rest =>
      match parseHex4 rest with
      | none => none
      | some (n, rest2) =>
        if 0xD800 ≤ n ∧ n ≤ 0xDBFF then
          match rest2 with
          | '\\' :: 'u' :: rest3 =>
            match parseHex4 rest3 with
            | some (m, rest4) =>
              if 0xDC00 ≤ m ∧ m ≤ 0xDFFF then
                (parseStringBody fuel rest4).map fun p =>
                  (Char.ofNat (0x10000 + (n - 0xD800) * 0x400 + (m - 0xDC00)) :: p.1, p.2)
              else none
            | none => none
          | _ => none
        else if 0xDC00 ≤ n ∧ n ≤ 0xDFFF then none
        else (parseStringBody fuel rest2).map fun p => (Char.ofNat n :: p.1, p.2)
    | _ => none
  | fuel + 1, c :: rest =>
    if c.toNat < 32 then none
    else (parseStringBody fuel rest).map fun p => (c :: p.1, p.2)

/-- Longest digit run at the head of the list. -/
def takeDigits (s : List Char) : List Char × List Char :=
  (s.takeWhile Char.isDigit, s.dropWhile Char.isDigit)

/-- Numeric value of a digit run. -/
def digitsVal (ds : List Char) : Nat :=
  ds.foldl (fun a c => a * 10 + (c.toNat - 48)) 0

/-- A JSON number token: `-? int frac? exp?`.  Integer literals become
`JsonVal.int` (Python `int`); anything with a fraction or exponent becomes
`JsonVal.float` carrying its lexeme (Python `float`). -/
def parseNumberLex (s : List Char) : Option (JsonVal × List Char) :=
  let negAndBody : Bool × List Char :=
    match s with
    | '-' :: t => (true, t)
    | _ => (false, s)
  let neg := negAndBody.1
  let s1 := negAndBody.2
  match takeDigits s1 with
  | ([], _) => none
  | (ip, s2) =>
    if 1 < ip.length ∧ ip.head? = some '0' then none
    else
      let fracAndRest : List Char × List Char :=
        match s2 with
        | '.' :: t =>
          match takeDigits t with
          | ([], _) => ([], s2)
          | (ds, r) => ('.' :: ds, r)
        | _ => ([], s2)
      let frac := fracAndRest.1
      let s3 := fracAndRest.2
      let expAndRest : List Char × List Char :=
        match s3 with
        | e :: t =>
          if e = 'e' ∨ e = 'E' then
            let signAndT : List Char × List Char :=
              match t with
              | '+' :: t2 => (['+'], t2)
              | '-' :: t2 => (['-'], t2)
              | _ => ([], t)
            match takeDigits signAndT.2 with
            | ([], _) => ([], s3)
            | (ds, r) => (e :: (signAndT.1 ++ ds), r)
          else ([], s3)
        | _ => ([], s3)
      let ex := expAndRest.1
      let s4 := expAndRest.2
      if frac = [] ∧ ex = [] then
        some (.int (if neg then -(digitsVal ip : Int) else (digitsVal ip : Int)), s4)
      else
        some (.float ((if neg then ['-'] else []) ++ ip ++ frac ++ ex), s4)

/-- Insert a key into an object under construction with Python `dict`
semantics: an existing key keeps its position and gets the new value. -/
def insertKey (fields : List (List Char × JsonVal)) (k : List Char) (v : JsonVal) :
    List (List Char × JsonVal) :=
  match fields with
  | [] => [(k, v)]
  | (k', v') :: rest =>
    if k' = k then (k', v) :: rest else (k', v') :: insertKey rest k v

mutual

/-- Parse one JSON value (after skipping leading whitespace). -/
def parseValue : Nat → List Char → Option (JsonVal × List Char)
  | 0, _ => none
  | fuel + 1, s =>
    match skipWs s with
    | 'n' :: 'u' :: 'l' :: 'l' :: rest => some (.null, rest)
    | 't' :: 'r' :: 'u' :: 'e' :: rest => some (.bool true, rest)
    | 'f' :: 'a' :: 'l' :: 's' :: 'e' :: rest => some (.bool false, rest)
    | 'N' :: 'a' :: 'N' :: rest => some (.float (chars "NaN"), rest)
    | 'I' :: 'n' :: 'f' :: 'i' :: 'n' :: 'i' :: 't' :: 'y' :: rest =>
      some (.float (chars "Infinity"), rest)
    | '-' :: 'I' :: 'n' :: 'f' :: 'i' :: 'n' :: 'i' :: 't' :: 'y' :: rest =>
      some (.float (chars "-Infinity"), rest)
    | '"' :: rest => (parseStringBody rest.length rest).map fun p => (.str p.1, p.2)
    | '[' :: rest => parseArrayItems fuel (skipWs rest)
    | '{' :: rest => parseObjMembers fuel (skipWs rest)
    | s' => parseNumberLex s'

/-- Parse the items of an array, positioned after `[` and leading
whitespace. -/
def parseArrayItems : Nat → List Char → Option (JsonVal × List Char)
  | 0, _ => none
  | fuel + 1, s =>
    match s with
    | ']' :: rest => some (.arr [], rest)
    | _ =>
      match parseValue fuel s with
      | none => none
      | some (v, rest) => parseArrayTail fuel [v] rest

/-- Parse `(, value)* ]` after at least one array item. -/
def parseArrayTail : Nat → List JsonVal → List Char → Option (JsonVal × List Char)
  | 0, _, _ => none
  | fuel + 1, acc, s =>
    match skipWs s with
    | ',' :: rest =>
      match parseValue fuel rest with
      | none => none
      | some (v, rest2) => parseArrayTail fuel (acc ++ [v]) rest2
    | ']' :: rest => some (.arr acc, rest)
    | _ => none

/-- Parse the members of an object, positioned after `{` and leading
whitespace. -/
def parseObjMembers : Nat → List Char → Option (JsonVal × List Char)
  | 0, _ => none
  | fuel + 1, s =>
    match s with
    | '}' :: rest => some (.obj [], rest)
    | '"' :: rest =>
      match parseStringBody rest.length rest with
      | none => none
      | some (k, rest2) =>
        match skipWs rest2 with
        | ':' :: rest3 =>
          match parseValue fuel rest3 with
          | none => none
          | some (v, rest4) => parseObjTail fuel (insertKey [] k v) rest4
        | _ => none
    | _ => none

/-- Parse `(, "key" : value)* \x7d` after at least one object member. -/
def parseObjTail : Nat → List (List Char × JsonVal) → List Char →
    Option (JsonVal × List Char)
  | 0, _, _ => none
  | fuel + 1, acc, s =>
    match skipWs s with
    | ',' :: rest =>
      match skipWs rest with
      | '"' :: rest1 =>
        match parseStringBody rest1.length rest1 with
        | none => none
        | some (k, rest2) =>
          match skipWs rest2 with
          | ':' :: rest3 =>
            match parseValue fuel rest3 with
            | none => none
            | some (v, rest4) => parseObjTail fuel (insertKey acc k v) rest4
          | _ => none
      | _ => none
    | '}' :: rest => some (.obj acc, rest)
    | _ => none

end

/-- Model of `json.loads`: parse one value and require only whitespace to
remain.  The fuel `2 * length + 2` dominates the recursion depth, which
consumes at least one character per two fuel units. -/
def jsonParse (s : List Char) : Option JsonVal :=
  match parseValue (2 * s.length + 2) s with
  | some (v, rest) => if skipWs rest = [] then some v else none
  | none => none

/-! ## Object field access (Python `dict` operations) -/

/-- First binding of a key in an object's field list (`fc["front"]` and
`q.get(...)` style access). -/
def lookupField : List (List Char × JsonVal) → List Char → Option JsonVal
  | [], _ => none
  | (k, v) :: rest, key => if k = key then some v else lookupField rest key

/-- Python `key in dict`. -/
def hasKey (fields : List (List Char × JsonVal)) (key : List Char) : Bool :=
  (lookupField fields key).isSome

/-! ## Structured extraction (`flashcards.py` 286-299, `quizzes.py` 293-308) -/

/-- One flashcard element passes validation when it is an object containing
both `front` and `back` (`flashcards.py` 287: the `any(...)` disjunct
`not isinstance(fc, dict) or 'front' not in fc or 'back' not in fc`,
negated). -/
def isValidFlashcard : JsonVal → Bool
  | .obj fields => hasKey fields (chars "front") && hasKey fields (chars "back")
  | _ => false

/-- One quiz-question element passes validation when it is an object with
all six required keys and a `correct_option` equal to one of the strings
`A`, `B`, `C`, `D` (`quizzes.py` 294-298, negated). -/
def quizRequiredKeys : List (List Char) :=
  [chars "question_text", chars "option_a", chars "option_b",
   chars "option_c", chars "option_d", chars "correct_option"]

def correctOptionOk (fields : List (List Char × JsonVal)) : Bool :=
  match lookupField fields (chars "correct_option") with
  | some (.str s) =>
    s = chars "A" || s = chars "B" || s = chars "C" || s = chars "D"
  | _ => false

def isValidQuizQuestion : JsonVal → Bool
  | .obj fields => quizRequiredKeys.all (hasKey fields) && correctOptionOk fields
  | _ => false

/-- Outcome of the parse-validate-persist tail of a create endpoint:
  * `parseFailure`  — `json.loads` raised, HTTP 500 "Failed to parse …";
  * `schemaFailure` — validation raised, HTTP 500 "… did not provide valid
    … structure";
  * `emptySuccess`  — the parsed array was empty: a success response with
    no set persisted;
  * `success items` — `items` are handed to the RPC that persists the set
    atomically. -/
inductive ExtractOutcome (α : Type) where
  | parseFailure
  | schemaFailure
  | emptySuccess
  | success (items : List α)

/-- `{"front_text": fc["front"], "back_text": fc["back"]}`
(`flashcards.py` 299).  Validation guarantees both keys are present, so the
`.null` defaults are never reached on validated input. -/
def formatFlashcard (fc : JsonVal) : JsonVal × JsonVal :=
  match fc with
  | .obj fields =>
    ((lookupField fields (chars "front")).getD .null,
     (lookupField fields (chars "back")).getD .null)
  | _ => (.null, .null)

/-- Flashcard extraction over the normalized JSON text
(`flashcards.py` 281-299). -/
def extractFlashcards (jsonText : List Char) : ExtractOutcome (JsonVal × JsonVal) :=
  match jsonParse jsonText with
  | none => .parseFailure
  | some (.arr fcs) =>
    if fcs.all isValidFlashcard then
      if fcs.isEmpty then .emptySuccess else .success (fcs.map formatFlashcard)
    else .schemaFailure
  | some _ => .schemaFailure

/-- Quiz-question extraction over the normalized JSON text
(`quizzes.py` 288-317).  On success the raw parsed elements themselves are
persisted. -/
def extractQuiz (jsonText : List Char) : ExtractOutcome JsonVal :=
  match jsonParse jsonText with
  | none => .parseFailure
  | some (.arr qs) =>
    if qs.all isValidQuizQuestion then
      if qs.isEmpty then .emptySuccess else .success qs
    else .schemaFailure
  | some _ => .schemaFailure

/-! ## Markdown-fence stripping (`flashcards.py` 262-271, `quizzes.py` 269-278)

    if "```" in json_text:
        json_match = re.search(r"```(?:json)?\s*\n([\s\S]*?)```", json_text)
        if json_match and json_match.group(1):
            json_text = json_match.group(1).strip()
        else:
            possible_json = re.search(r"\[\s*\{[\s\S]*\}\s*\]", json_text)
            if possible_json:
                json_text = possible_json.group(0)

Both regex searches are deterministic once the backtracking is unfolded;
the derivations are spelled out at each definition. -/

/-- Length of the maximal `\s` run at the head of the list. -/
def wsRunLen (s : List Char) : Nat := (s.takeWhile isPyWs).length

/-- Index of the last `'\n'` strictly before position `w`, all of
`s[0..w)` being whitespace.  This is where the greedy `\s*` of
`` ```(?:json)?\s*\n `` ends up after backtracking: `\s*` prefers the
longest run, and backtracks until the next character is a newline, i.e. to
the last newline inside the run. -/
def lastNewlineBefore (s : List Char) (w : Nat) : Option Nat :=
  ((List.range w).filter fun i => (s.drop i).head? == some '\n').getLast?

/-- Split at the first occurrence of `pat`: returns the part before the
occurrence and the part after it, or `none` when `pat` does not occur.
This realises the lazy `([\s\S]*?)` group followed by a literal. -/
def splitFirstSub (pat : List Char) : List Char → Option (List Char × List Char)
  | [] => if pat.isEmpty then some ([], []) else none
  | s@(c :: rest) =>
    if pat.isPrefixOf s then some ([], s.drop pat.length)
    else (splitFirstSub pat rest).map fun p => (c :: p.1, p.2)

/-- Try `\s*\n([\s\S]*?)```​` at `u` (the position right after the opening
fence and the optional `json` tag).  The whole whitespace run up to and
including its last newline is consumed; the group runs to the first closing
fence.  The closing fence cannot begin inside the remaining whitespace, so
no further backtracking arises. -/
def fenceAfterOpen (u : List Char) : Option (List Char) :=
  match lastNewlineBefore u (wsRunLen u) with
  | none => none
  | some k =>
    match splitFirstSub (chars "```") (u.drop (k + 1)) with
    | some (grp, _) => some grp
    | none => none

/-- Try the first fence regex at one start position.  The greedy optional
`(?:json)?` first tries to consume `json` and falls back to not consuming
it. -/
def matchFenceAt (t : List Char) : Option (List Char) :=
  if (chars "```").isPrefixOf t then
    let t1 := t.drop 3
    match (if (chars "json").isPrefixOf t1 then fenceAfterOpen (t1.drop 4) else none) with
    | some g => some g
    | none => fenceAfterOpen t1
  else none

/-- `re.search` of the fence pattern: leftmost start position wins. -/
def searchFence : List Char → Option (List Char)
  | [] => none
  | s@(_ :: rest) =>
    match matchFenceAt s with
    | some g => some g
    | none => searchFence rest

/-- Does `u` start with `'\x7d'` followed by optional whitespace and
`'\x5d'`?  (A viable end for the greedy array regex.) -/
def goodArrayClose (u : List Char) : Bool :=
  match u with
  | '}' :: v => (v.drop (wsRunLen v)).head? == some ']'
  | _ => false

/-- Position of the last viable `'\x7d' \s* '\x5d'` close inside `rem`:
the greedy `[\s\S]*` backtracks from the end, so the LAST such position is
taken. -/
def lastGoodClose (rem : List Char) : Option Nat :=
  ((List.range rem.length).filter fun i => goodArrayClose (rem.drop i)).getLast?

/-- Try the array regex `\[\s*\{[\s\S]*\}\s*\]` at one start position,
returning the whole match (group 0).  After `[`, the greedy `\s*` must end
exactly at a `{` (a brace is not whitespace), and the greedy middle runs to
the last viable close. -/
def matchArrayAt (t : List Char) : Option (List Char) :=
  match t with
  | '[' :: u =>
    let w := wsRunLen u
    match u.drop w with
    | '{' :: rem =>
      match lastGoodClose rem with
      | none => none
      | some q =>
        let r := q + 1 + wsRunLen (rem.drop (q + 1))
        some (t.take (1 + w + 1 + r + 1))
    | _ => none
  | _ => none

/-- `re.search` of the array pattern: leftmost start position wins. -/
def searchArray : List Char → Option (List Char)
  | [] => none
  | s@(_ :: rest) =>
    match matchArrayAt s with
    | some g => some g
    | none => searchArray rest

/-- The whole response-normalization step of the create endpoints: fence
stripping (only when a triple backtick occurs) followed by the
escape-repair pass (`flashcards.py` 262-279). -/
def normalizeText (raw : List Char) : List Char :=
  let jt :=
    if containsSub (chars "```") raw then
      match searchFence raw with
      | some g1 => if g1.isEmpty then fallbackArray raw else pyStrip g1
      | none => fallbackArray raw
    else raw
  escapeRepair jt
where
  /-- `group(1)` missing or empty: fall back to the bracketed-array
  search, keeping the raw text when that fails too. -/
  fallbackArray (raw : List Char) : List Char :=
    match searchArray raw with
    | some m => m
    | none => raw

/-! ## The datastore

Rows of the `notes`, `quiz_sets` and `flashcard_sets` tables, each scoped
by an owner id; `quiz_sets`/`flashcard_sets` also carry the owning note id.
Child rows back the chat context assembler's flattening queries. -/

structure Row where
  id : List Char
  user_id : List Char
  title : List Char
  content : List Char
  note_id : List Char := []

structure QuizQRow where
  quiz_set_id : List Char
  question_text : List Char
  option_a : List Char
  option_b : List Char
  option_c : List Char
  option_d : List Char
  correct_option : List Char
  explanation : List Char

structure CardRow where
  flashcard_set_id : List Char
  front : List Char
  back : List Char

structure Db where
  notes : List Row
  quiz_sets : List Row
  flashcard_sets : List Row
  quiz_questions : List QuizQRow
  individual_flashcards : List CardRow

/-- `.eq('id', id).eq('user_id', user).execute()` on a table of `Row`s. -/
def selectByIdAndUser (rows : List Row) (id user : List Char) : List Row :=
  rows.filter fun r => r.id == id && r.user_id == user

/-- Supabase `.single()`: succeeds only when the filtered result holds
exactly one row. -/
def selectSingle (rows : List Row) (id user : List Char) : Option Row :=
  match selectByIdAndUser rows id user with
  | [r] => some r
  | _ => none

/-! ## Chat context assembler (`chat.py` 42-145) -/

structure ContextDocument where
  id : List Char
  type : List Char
  name : List Char

/-- Python `str.capitalize` for the ASCII strings used as document types. -/
def pyCapitalize : List Char → List Char
  | [] => []
  | c :: rest => c.toUpper :: rest.map Char.toLower

/-- Flatten one quiz question (`chat.py` 79-88). -/
def questionText (q : QuizQRow) : List Char :=
  chars "Question: " ++ q.question_text ++ chars "\n" ++
  chars "Option A: " ++ q.option_a ++ chars "\n" ++
  chars "Option B: " ++ q.option_b ++ chars "\n" ++
  chars "Option C: " ++ q.option_c ++ chars "\n" ++
  chars "Option D: " ++ q.option_d ++ chars "\n" ++
  chars "Correct Option: " ++ q.correct_option ++ chars "\n" ++
  chars "Explanation: " ++ q.explanation

/-- Python `"\n\n".join`. -/
def joinBlocks : List (List Char) → List Char
  | [] => []
  | [b] => b
  | b :: rest => b ++ chars "\n\n" ++ joinBlocks rest

/-- The `"Error: {type} with ID {id} not found"` placeholder string of
`chat.py` 65. -/
def notFoundText (doc : ContextDocument) : List Char :=
  chars "Error: " ++ doc.type ++ chars " with ID " ++ doc.id ++ chars " not found"

/-- The default `"{Type}: {title}\n\n{content}"` rendering of
`chat.py` 108. -/
def defaultDocText (doc : ContextDocument) (document : Row) : List Char :=
  pyCapitalize doc.type ++ chars ": " ++ document.title ++ chars "\n\n" ++
    document.content

/-- `fetch_document_content` (`chat.py` 42-112), written as one branch per
declared document type (the source selects the table by type and then
applies the type-specific flattening).  The select filters by both `id`
and the CALLER's `user_id`; a missing or foreign-owned document produces
the `"Error: … not found"` placeholder STRING, not an exception.  An
unknown document type raises `ValueError`, which the surrounding `except`
converts into another placeholder string. -/
def fetchDocumentContent (user : List Char) (doc : ContextDocument) (db : Db) :
    List Char :=
  if doc.type = chars "note" then
    match selectByIdAndUser db.notes doc.id user with
    | [] => notFoundText doc
    | document :: _ => defaultDocText doc document
  else if doc.type = chars "quiz" then
    match selectByIdAndUser db.quiz_sets doc.id user with
    | [] => notFoundText doc
    | document :: _ =>
      let questions := db.quiz_questions.filter fun q => q.quiz_set_id == doc.id
      if ¬ questions.isEmpty then
        chars "Quiz: " ++ document.title ++ chars "\n\n" ++
          joinBlocks (questions.map questionText)
      else defaultDocText doc document
  else if doc.type = chars "flashcard_set" then
    match selectByIdAndUser db.flashcard_sets doc.id user with
    | [] => notFoundText doc
    | document :: _ =>
      let cards := db.individual_flashcards.filter fun c => c.flashcard_set_id == doc.id
      if ¬ cards.isEmpty then
        chars "Flashcard Set: " ++ document.title ++ chars "\n\n" ++
          joinBlocks (cards.map fun c =>
            chars "Front: " ++ c.front ++ chars "\n" ++ chars "Back: " ++ c.back)
      else defaultDocText doc document
  else
    chars "Error: Could not fetch document content: Unknown document type: " ++ doc.type

structure ChatMessage where
  role : List Char
  content : List Char

structure ChatRequestModel where
  message : List Char
  history : List ChatMessage
  contextDocument : Option ContextDocument

/-- Outcome of the `chat` endpoint up to the provider call: either an
HTTP error, or it proceeds to the provider with the assembled messages. -/
inductive ChatOutcome where
  | httpError (code : Nat) (detail : List Char)
  | proceeds (messages : List ChatMessage)

/-- The instruction template wrapping a fetched document (`chat.py` 131). -/
def contextTemplate (contextText message : List Char) : List Char :=
  chars "I want you to answer questions about the following document. First, I'll provide the document content, and then I'll ask questions about it.\n\nDocument Content:\n"
    ++ contextText
    ++ chars "\n\nNow, based on this document, please answer the following question: "
    ++ message

/-- The `chat` endpoint up to the provider call (`chat.py` 114-145).
Whatever string `fetch_document_content` returned — including its error
placeholders — is injected into the prompt; the endpoint never raises a
404 for a missing context document. -/
def chatEndpoint (openrouterKey : Bool) (user : List Char) (req : ChatRequestModel)
    (db : Db) : ChatOutcome :=
  if ¬ openrouterKey then
    .httpError 500 (chars "OPENROUTER_API_KEY is not configured")
  else
    let base := req.history
    match req.contextDocument with
    | some doc =>
      let contextText := fetchDocumentContent user doc db
      .proceeds (base ++ [⟨chars "user", contextTemplate contextText req.message⟩])
    | none => .proceeds (base ++ [⟨chars "user", req.message⟩])

/-! ## Cascading note deletion (`notes.py` 118-193) -/

/-- Oracle for the three delete sub-steps: `some msg` means the datastore
reported that error for the step, `none` means the step succeeded. -/
structure DeleteEnv where
  quizDeleteError : Option (List Char)
  flashcardDeleteError : Option (List Char)
  noteDeleteError : Option (List Char)

inductive DeleteOp where
  | delQuizSets
  | delFlashcardSets
  | delNoteRow
deriving DecidableEq

inductive DeleteResponse where
  | httpError (code : Nat) (detail : List Char)
  | okPlain
  | okWithErrors (quizDeleteError flashcardDeleteError : Option (List Char))

/-- A delete call on a table: on success the matching rows are removed, on
a reported error the table is untouched. -/
def runDelete (rows : List Row) (p : Row → Bool) (err : Option (List Char)) :
    List Row :=
  match err with
  | some _ => rows
  | none => rows.filter fun r => ! p r

/-- `delete_note` (`notes.py` 120-193): ownership check via `single()`,
then delete associated quiz sets, then associated flashcard sets, then the
note.  Child-step errors are only logged; a note-step error raises 500; if
a child step failed but the note was deleted, the response is a success
carrying the child errors.  Returns (response, final db, attempted
steps). -/
def deleteNote (note_id user : List Char) (db : Db) (env : DeleteEnv) :
    DeleteResponse × Db × List DeleteOp :=
  match selectSingle db.notes note_id user with
  | none => (.httpError 404 (chars "Note not found or access denied"), db, [])
  | some _ =>
    let belongs : Row → Bool := fun r => r.note_id == note_id && r.user_id == user
    let qs' := runDelete db.quiz_sets belongs env.quizDeleteError
    let fs' := runDelete db.flashcard_sets belongs env.flashcardDeleteError
    let trace := [DeleteOp.delQuizSets, DeleteOp.delFlashcardSets, DeleteOp.delNoteRow]
    match env.noteDeleteError with
    | some e =>
      (.httpError 500
        (chars "Failed to delete the note after attempting to delete children: " ++ e),
       { db with quiz_sets := qs', flashcard_sets := fs' }, trace)
    | none =>
      let notes' := db.notes.filter fun r => ! (r.id == note_id && r.user_id == user)
      let db' := { db with notes := notes', quiz_sets := qs', flashcard_sets := fs' }
      if env.quizDeleteError.isSome || env.flashcardDeleteError.isSome then
        (.okWithErrors env.quizDeleteError env.flashcardDeleteError, db', trace)
      else
        (.okPlain, db', trace)

/-! ## Upload orchestrator, per-file branch (`upload.py` 29-290)

The two Gemini calls per file are external collaborators, modelled as
oracles attached to the file: `aiAnalysis` is the outcome of the
content-generation call of `process_file_with_gemini` (`.error` = the call
raised), and `aiTitleRaw` is the raw text of the title call of
`generate_topic_with_ai` (`none` = that call raised; it is caught and
replaced by a fallback, never fatal). -/

structure UploadFileModel where
  filename : List Char
  aiAnalysis : Except (List Char) (List Char)
  aiTitleRaw : Option (List Char)

/-- `generate_topic_with_ai` (`upload.py` 29-53): strip the response,
unquote it, and fall back to the context hint (the filename) or
`"Untitled Note"` when the call failed or returned nothing. -/
def generateTopic (raw : Option (List Char)) (hint : List Char) : List Char :=
  let fallback := if hint.isEmpty then chars "Untitled Note" else hint
  match raw with
  | none => fallback
  | some t =>
    let t := pyStrip t
    let t :=
      if t.head? == some '"' ∧ t.getLast? == some '"' then (t.drop 1).dropLast else t
    if t.isEmpty then fallback else t

structure ProcessedResult where
  fileName : List Char
  analysis : List Char
  title : List Char

/-- `process_file_with_gemini` (`upload.py` 55-107): a raised AI call is
re-raised as `HTTPException(500, "Failed to process file …")`. -/
def processFileWithGemini (f : UploadFileModel) :
    Except (Nat × List Char) ProcessedResult :=
  match f.aiAnalysis with
  | .error e =>
    .error (500, chars "Failed to process file " ++ f.filename ++ chars ": " ++ e)
  | .ok analysis =>
    .ok ⟨f.filename, analysis, generateTopic f.aiTitleRaw f.filename⟩

/-- The sequential per-file loop of `upload_files` (`upload.py` 266-269):
there is no per-file exception handling, so the first failure propagates
and aborts the loop. -/
def processAllFiles : List UploadFileModel →
    Except (Nat × List Char) (List ProcessedResult)
  | [] => .ok []
  | f :: fs =>
    match processFileWithGemini f with
    | .error e => .error e
    | .ok r =>
      match processAllFiles fs with
      | .error e => .error e
      | .ok rs => .ok (r :: rs)

structure NoteRow where
  title : List Char
  content : List Char
  user_id : List Char

inductive UploadResponse where
  | httpError (code : Nat) (detail : List Char)
  | ok (message : List Char) (notes : List NoteRow)

/-- The per-file (ungrouped) branch of `upload_files` (`upload.py`
236-290) composed with `store_results_in_supabase` (`upload.py` 196-229,
datastore inserts modelled as succeeding): returns the HTTP response and
the list of note rows actually persisted. -/
def uploadFilesUngrouped (user : List Char) (files : List UploadFileModel) :
    UploadResponse × List NoteRow :=
  if 5 < files.length then
    (.httpError 413 (chars "You can upload a maximum of 5 files at a time."), [])
  else if files.length = 0 then
    (.httpError 400 (chars "No files provided"), [])
  else
    match processAllFiles files with
    | .error (code, msg) => (.httpError code msg, [])
    | .ok results =>
      let stored := results.map fun r => NoteRow.mk r.title r.analysis user
      (.ok (chars "Files processed and stored successfully") stored, stored)

/-! ## Chat streaming relay (`chat.py` 184-258)

The 200-status branch of `stream_openrouter_response` consumes the
provider byte stream split at newlines; we model the input as the list of
complete (newline-terminated) lines.  Yields become events: a content
delta (the re-serialised SSE payload is determined by the extracted
content), the `[DONE]` end marker, or `crashed` for an uncaught exception
(only `json.JSONDecodeError` is caught; a parseable chunk of the wrong
shape raises `KeyError`/`TypeError`/`AttributeError` and aborts the
generator). -/

inductive StreamEvent where
  | delta (content : JsonVal)
  | done
  | crashed

/-- `data_obj["choices"][0]["delta"].get("content", "")` (`chat.py` 245):
`none` models an uncaught exception for a value of the wrong shape. -/
def extractDeltaContent (v : JsonVal) : Option JsonVal :=
  match v with
  | .obj fields =>
    match lookupField fields (chars "choices") with
    | some (.arr (c0 :: _)) =>
      match c0 with
      | .obj cf =>
        match lookupField cf (chars "delta") with
        | some (.obj df) => some ((lookupField df (chars "content")).getD (.str []))
        | _ => none
      | _ => none
    | _ => none
  | _ => none

/-- The relay loop over complete lines (`chat.py` 233-258). -/
def relayLines : List (List Char) → List StreamEvent
  | [] => []
  | line :: rest =>
    if (chars "data: ").isPrefixOf (pyStrip line) then
      if (pyStrip line).drop 6 = chars "[DONE]" then [StreamEvent.done]
      else
        match jsonParse ((pyStrip line).drop 6) with
        | none => relayLines rest
        | some v =>
          match extractDeltaContent v with
          | none => [StreamEvent.crashed]
          | some c => StreamEvent.delta c :: relayLines rest
    else relayLines rest

/-- A well-formed provider delta chunk carrying `content`. -/
def mkChunk (content : JsonVal) : JsonVal :=
  .obj [(chars "choices",
         .arr [.obj [(chars "delta", .obj [(chars "content", content)])]])]

/-! ## The create endpoints (`flashcards.py` 183-355, `quizzes.py` 192-369)

The handlers are modelled up to their externally visible actions.  The
`CreateEffect` trace records, in order, the side-effecting collaborator
calls the handler performed: the note select, the Gemini call, the
persisting RPC, and the confirmation re-select. -/

inductive CreateEffect where
  | fetchNote
  | aiCall
  | rpcWrite
  | fetchNewSet
deriving DecidableEq

inductive ApiResponse where
  | httpError (code : Nat) (detail : List Char)
  | okNoSet (message : List Char)
  | okCreated

/-- `create_flashcards` (`flashcards.py` 184-355).  `geminiKey` is whether
`GEMINI_API_KEY` is configured; `aiText` is the oracle for
`response.text` of the Gemini call; `rpcOk` is whether the persisting RPC
succeeds. -/
def createFlashcards (geminiKey : Bool) (reqNoteId reqUserId userId : List Char)
    (db : Db) (aiText : List Char) (rpcOk : Bool) : ApiResponse × List CreateEffect :=
  if ¬ geminiKey then
    (.httpError 500 (chars "GEMINI_API_KEY is not configured on the server"), [])
  else if reqUserId ≠ userId then
    (.httpError 403 (chars "User ID mismatch"), [])
  else if reqNoteId.isEmpty then
    (.httpError 400 (chars "Missing noteId"), [])
  else
    match selectSingle db.notes reqNoteId userId with
    | none =>
      (.httpError 404 (chars "Failed to fetch note or note not found"), [.fetchNote])
    | some _ =>
      match extractFlashcards (normalizeText aiText) with
      | .parseFailure =>
        (.httpError 500 (chars "Failed to parse flashcard data from AI response"),
         [.fetchNote, .aiCall])
      | .schemaFailure =>
        (.httpError 500 (chars "AI response did not provide valid flashcard structure"),
         [.fetchNote, .aiCall])
      | .emptySuccess =>
        (.okNoSet (chars "No flashcards generated from the content."),
         [.fetchNote, .aiCall])
      | .success _ =>
        if rpcOk then (.okCreated, [.fetchNote, .aiCall, .rpcWrite, .fetchNewSet])
        else
          (.httpError 500 (chars "Failed to store flashcards in database"),
           [.fetchNote, .aiCall, .rpcWrite])

/-- `create_quiz` (`quizzes.py` 193-369), same shape as
`createFlashcards` with the quiz validator and messages. -/
def createQuiz (geminiKey : Bool) (reqNoteId reqUserId userId : List Char)
    (db : Db) (aiText : List Char) (rpcOk : Bool) : ApiResponse × List CreateEffect :=
  if ¬ geminiKey then
    (.httpError 500 (chars "GEMINI_API_KEY is not configured on the server"), [])
  else if reqUserId ≠ userId then
    (.httpError 403 (chars "User ID mismatch"), [])
  else if reqNoteId.isEmpty then
    (.httpError 400 (chars "Missing noteId"), [])
  else
    match selectSingle db.notes reqNoteId userId with
    | none =>
      (.httpError 404 (chars "Failed to fetch note or note not found"), [.fetchNote])
    | some _ =>
      match extractQuiz (normalizeText aiText) with
      | .parseFailure =>
        (.httpError 500 (chars "Failed to parse quiz data from AI response"),
         [.fetchNote, .aiCall])
      | .schemaFailure =>
        (.httpError 500 (chars "AI response did not provide valid quiz question structure"),
         [.fetchNote, .aiCall])
      | .emptySuccess =>
        (.okNoSet (chars "No quiz questions generated from the content."),
         [.fetchNote, .aiCall])
      | .success _ =>
        if rpcOk then (.okCreated, [.fetchNote, .aiCall, .rpcWrite, .fetchNewSet])
        else
          (.httpError 500 (chars "Failed to store quiz in database"),
           [.fetchNote, .aiCall, .rpcWrite])

/-! ## Helper lemmas about the escape-repair pass -/

lemma isPrefixOf_append_self (a b : List Char) : a.isPrefixOf (a ++ b) = true := by
  induction a with
  | nil => cases b <;> rfl
  | cons c cs ih => simp [List.isPrefixOf]

lemma containsSub_eq_false_of_head_notMem {p : Char} {pt s : List Char}
    (h : p ∉ s) : containsSub (p :: pt) s = false := by
  induction s with
  | nil => rfl
  | cons c rest ih =>
    have hpc : p ≠ c := fun he => h (he ▸ List.mem_cons_self c rest)
    have hrest : p ∉ rest := fun hm => h (List.mem_cons_of_mem c hm)
    simp [containsSub, List.isPrefixOf, ih hrest, hpc]

lemma replaceAllAux_of_not_contains {pat repl : List Char} :
    ∀ (fuel : Nat) (s : List Char), containsSub pat s = false →
      replaceAllAux pat repl fuel s = s := by
  intro fuel
  induction fuel with
  | zero => intro s _; rfl
  | succ n ih =>
    intro s h
    cases s with
    | nil => rfl
    | cons c rest =>
      have h' := h
      simp only [containsSub, Bool.or_eq_false_iff] at h'
      rw [replaceAllAux, if_neg, ih rest h'.2]
      rintro ⟨-, hpre⟩
      rw [h'.1] at hpre
      exact Bool.false_ne_true hpre

lemma replaceAll_of_not_contains {pat repl s : List Char}
    (h : containsSub pat s = false) : replaceAll pat repl s = s :=
  replaceAllAux_of_not_contains s.length s h

lemma replaceAllAux_cons_eq (pat repl : List Char) (fuel : Nat) (c : Char)
    (rest : List Char) :
    replaceAllAux pat repl (fuel + 1) (c :: rest) =
      if pat ≠ [] ∧ pat.isPrefixOf (c :: rest) then
        repl ++ replaceAllAux pat repl fuel ((c :: rest).drop pat.length)
      else
        c :: replaceAllAux pat repl fuel rest := rfl

lemma replaceAllAux_head {pat repl : List Char} (hpat : pat ≠ []) (fuel : Nat)
    (rest : List Char) :
    replaceAllAux pat repl (fuel + 1) (pat ++ rest) =
      repl ++ replaceAllAux pat repl fuel ((pat ++ rest).drop pat.length) := by
  cases pat with
  | nil => exact absurd rfl hpat
  | cons p pt =>
    have hcond : (p :: pt) ≠ [] ∧ (p :: pt).isPrefixOf (p :: (pt ++ rest)) := by
      refine ⟨by simp, ?_⟩
      exact isPrefixOf_append_self (p :: pt) rest
    show replaceAllAux (p :: pt) repl (fuel + 1) (p :: (pt ++ rest)) = _
    rw [replaceAllAux_cons_eq, if_pos hcond]
    rfl

lemma replaceAll_head {pat repl rest : List Char} (hpat : pat ≠ [])
    (hrest : containsSub pat rest = false) :
    replaceAll pat repl (pat ++ rest) = repl ++ rest := by
  unfold replaceAll
  have hlen : (pat ++ rest).length = (pat.length + rest.length - 1) + 1 := by
    cases pat with
    | nil => exact absurd rfl hpat
    | cons p pt => simp [List.length_append]
  rw [hlen, replaceAllAux_head hpat]
  rw [List.drop_left]
  rw [replaceAllAux_of_not_contains _ rest hrest]

lemma escapeSingles_pair (c c2 : Char) : escapeSingles [c, c2] = [c, c2] := by
  rw [escapeSingles.eq_def]
  split
  · rename_i heq
    exact List.noConfusion heq
  · rename_i heq
    injection heq with h1 h2
    injection h2 with hbs h3
    exact List.noConfusion h3
  · rename_i c' rest' heq
    injection heq with h1 h2
    rw [← h1, ← h2]
    rfl

lemma escapeSingles_cons_of_ne {c2 : Char} (h : c2 ≠ '\\') (c d : Char)
    (rest2 : List Char) :
    escapeSingles (c :: c2 :: d :: rest2) = c :: escapeSingles (c2 :: d :: rest2) := by
  rw [escapeSingles.eq_def]
  split
  · rename_i heq
    exact List.noConfusion heq
  · rename_i heq
    injection heq with h1 h2
    injection h2 with hbs _
    exact absurd hbs h
  · rename_i c' rest' heq
    injection heq with h1 h2
    rw [← h1, ← h2]

lemma escapeSingles_of_no_backslash :
    ∀ (n : Nat) (s : List Char), s.length ≤ n → '\\' ∉ s → escapeSingles s = s := by
  intro n
  induction n with
  | zero =>
    intro s hlen _
    rw [List.length_eq_zero.mp (Nat.le_zero.mp hlen)]
    rfl
  | succ n ih =>
    intro s hlen hmem
    match s with
    | [] => rfl
    | [c] => rfl
    | c :: c2 :: rest =>
      have hc2 : c2 ≠ '\\' := fun he => hmem (by simp [he])
      have htail : escapeSingles (c2 :: rest) = c2 :: rest := by
        refine ih (c2 :: rest) ?_ fun hm => hmem (List.mem_cons_of_mem c hm)
        simp only [List.length_cons] at hlen ⊢
        omega
      cases rest with
      | nil => exact escapeSingles_pair c c2
      | cons d rest2 =>
        rw [escapeSingles_cons_of_ne hc2, htail]

lemma escapeRepair_of_no_backslash {s : List Char} (hbs : '\\' ∉ s)
    (hsent : containsSub sentinel s = false) : escapeRepair s = s := by
  unfold escapeRepair
  rw [replaceAll_of_not_contains (containsSub_eq_false_of_head_notMem hbs),
    escapeSingles_of_no_backslash s.length s le_rfl hbs,
    replaceAll_of_not_contains hsent]

/-! ## Claim C1 -/

/-- C1, counterexample.  The claim asserts the escape-repair pass is a
semantic no-op on every valid JSON text.  It is not: the four-character
JSON text `"\\"` (a string whose value is one backslash) is rewritten to
`"\\\\"` (value: two backslashes), because the sentinel that replaced the
literal double backslash is restored as FOUR backslashes
(`flashcards.py` 279). -/
theorem c1_counterexample :
    jsonParse ['"', '\\', '\\', '"'] = some (.str ['\\']) ∧
    escapeRepair ['"', '\\', '\\', '"'] = ['"', '\\', '\\', '\\', '\\', '"'] ∧
    jsonParse (escapeRepair ['"', '\\', '\\', '"']) = some (.str ['\\', '\\']) ∧
    JsonVal.str ['\\'] ≠ JsonVal.str ['\\', '\\'] := by
  refine ⟨rfl, rfl, rfl, fun h => ?_⟩
  injection h with h'
  exact absurd h' (by decide)

/-- C1, amended: the escape-repair pass is a semantic no-op (indeed the
identity) on valid JSON text that contains no backslash character and no
occurrence of the sentinel token `##DOUBLE_BACKSLASH##`; the repaired
string parses to the identical value. -/
theorem c1_repair_semantic_noop (s : List Char) (v : JsonVal)
    (hvalid : jsonParse s = some v) (hbs : '\\' ∉ s)
    (hsent : containsSub sentinel s = false) :
    jsonParse (escapeRepair s) = some v := by
  rw [escapeRepair_of_no_backslash hbs hsent]
  exact hvalid

/-- C1, witness: the amended theorem applied to the valid JSON text
`[]`. -/
theorem c1_witness :
    jsonParse (chars "[]") = some (.arr []) ∧
    jsonParse (escapeRepair (chars "[]")) = some (.arr []) :=
  ⟨rfl, c1_repair_semantic_noop (chars "[]") (.arr []) rfl (by decide) (by decide)⟩

/-! ## Claim C2 -/

/-- C2, counterexample.  The claim asserts (1) a single backslash followed
by any valid JSON escape character — including `u` — is left unchanged,
and (2) each sentinel is restored to exactly two backslashes.  Both parts
fail: the regex class `[^\\/"bfnrt]` omits `u`, so `a\u` is doubled to
`a\\u`; and a literal double backslash comes back as four backslashes. -/
theorem c2_counterexample :
    escapeRepair ['a', '\\', 'u'] = ['a', '\\', '\\', 'u'] ∧
    escapeRepair ['\\', '\\'] = ['\\', '\\', '\\', '\\'] ∧
    (['\\', '\\', '\\', '\\'] : List Char) ≠ ['\\', '\\'] :=
  ⟨rfl, rfl, by decide⟩

/-- C2, amended: (1) a single backslash is left unchanged when followed by
one of `" \ / b f n r t` — but NOT `u`: a backslash followed by `u` is
doubled; (2) each literal double backslash (replaced by the sentinel) is
restored as exactly FOUR backslash characters. -/
theorem c2_escape_repair_rules (d : Char)
    (hd : d ∈ ['"', '/', 'b', 'f', 'n', 'r', 't'])
    (rest : List Char) (hbs : '\\' ∉ rest)
    (hsent : containsSub sentinel rest = false) :
    escapeRepair ['a', '\\', d] = ['a', '\\', d] ∧
    escapeRepair ['a', '\\', 'u'] = ['a', '\\', '\\', 'u'] ∧
    escapeRepair ('\\' :: '\\' :: rest) = fourBackslashes ++ rest := by
  refine ⟨?_, rfl, ?_⟩
  · fin_cases hd <;> rfl
  · unfold escapeRepair
    have h1 : replaceAll ['\\', '\\'] sentinel ('\\' :: '\\' :: rest) =
        sentinel ++ rest := by
      have he : ('\\' :: '\\' :: rest) = ['\\', '\\'] ++ rest := rfl
      rw [he, replaceAll_head (by simp) (containsSub_eq_false_of_head_notMem hbs)]
    rw [h1]
    have h2 : escapeSingles (sentinel ++ rest) = sentinel ++ rest := by
      refine escapeSingles_of_no_backslash (sentinel ++ rest).length _ le_rfl ?_
      intro hm
      rcases List.mem_append.mp hm with h | h
      · exact absurd h (by decide)
      · exact hbs h
    rw [h2]
    exact replaceAll_head (by decide) hsent

/-- C2, witness: the amended theorem applied to `a\"` (kept as is), `a\u`
(doubled), and `\\x` (sentinel restored as four backslashes). -/
theorem c2_witness :
    escapeRepair ['a', '\\', '"'] = ['a', '\\', '"'] ∧
    escapeRepair ['\\', '\\', 'x'] = fourBackslashes ++ ['x'] :=
  ⟨(c2_escape_repair_rules '"' (by decide) ['x'] (by decide) (by decide)).1,
   (c2_escape_repair_rules '"' (by decide) ['x'] (by decide) (by decide)).2.2⟩

/-! ## Claim C3 -/

/-- C3: flashcard extraction is all-or-nothing.  If the parsed value is
not a list, or any element is not an object or lacks `front` or `back`,
the whole extraction is a schema failure and no partial list of items is
returned (`flashcards.py` 287-289). -/
theorem c3_flashcard_all_or_nothing (t : List Char) (v : JsonVal)
    (hparse : jsonParse t = some v)
    (hbad : (∀ l, v ≠ .arr l) ∨
      ∃ l, v = .arr l ∧ ∃ fc ∈ l, isValidFlashcard fc = false) :
    extractFlashcards t = .schemaFailure ∧
    ∀ items, extractFlashcards t ≠ .success items := by
  have hmain : extractFlashcards t = .schemaFailure := by
    unfold extractFlashcards
    rw [hparse]
    rcases hbad with hna | ⟨l, rfl, fc, hmem, hfc⟩
    · cases v with
      | arr l => exact absurd rfl (hna l)
      | null => rfl
      | bool b => rfl
      | int n => rfl
      | float x => rfl
      | str s => rfl
      | obj f => rfl
    · have hall : l.all isValidFlashcard = false := by
        refine Bool.eq_false_iff.mpr fun hT => ?_
        rw [List.all_eq_true] at hT
        rw [hT fc hmem] at hfc
        exact Bool.noConfusion hfc
      simp [hall]
  exact ⟨hmain, fun items h => by
    rw [hmain] at h
    exact ExtractOutcome.noConfusion h⟩

/-- C3, witness: `[{"front": "Q"}]` (missing `back`) is rejected as a
schema failure. -/
theorem c3_witness :
    extractFlashcards (chars "[\x7b\"front\": \"Q\"\x7d]") = .schemaFailure :=
  (c3_flashcard_all_or_nothing (chars "[\x7b\"front\": \"Q\"\x7d]")
    (.arr [.obj [(chars "front", .str (chars "Q"))]])
    rfl
    (Or.inr ⟨_, rfl, .obj [(chars "front", .str (chars "Q"))], by simp, by decide⟩)).1

/-! ## Claim C4 -/

/-- C4: quiz extraction fails with a schema error when any element fails
the element validator, and succeeds (empty-success or success with exactly
the parsed elements) when every element passes; moreover, an object
element fails the validator precisely when a required key is missing or
its `correct_option` is not one of the strings `A`, `B`, `C`, `D`
(`quizzes.py` 293-308). -/
theorem c4_quiz_required_fields (t : List Char) (qs : List JsonVal)
    (hparse : jsonParse t = some (.arr qs)) :
    ((∃ q ∈ qs, isValidQuizQuestion q = false) → extractQuiz t = .schemaFailure) ∧
    ((∀ q ∈ qs, isValidQuizQuestion q = true) →
      extractQuiz t = if qs.isEmpty then .emptySuccess else .success qs) ∧
    (∀ fields, isValidQuizQuestion (.obj fields) = false ↔
      (∃ k ∈ quizRequiredKeys, hasKey fields k = false) ∨
        correctOptionOk fields = false) := by
  refine ⟨?_, ?_, ?_⟩
  · rintro ⟨q, hmem, hq⟩
    have hall : qs.all isValidQuizQuestion = false := by
      refine Bool.eq_false_iff.mpr fun hT => ?_
      rw [List.all_eq_true] at hT
      rw [hT q hmem] at hq
      exact Bool.noConfusion hq
    unfold extractQuiz
    rw [hparse]
    simp [hall]
  · intro hgood
    have hall : qs.all isValidQuizQuestion = true := List.all_eq_true.mpr hgood
    unfold extractQuiz
    rw [hparse]
    simp [hall]
  · intro fields
    show (quizRequiredKeys.all (hasKey fields) && correctOptionOk fields) = false ↔ _
    simp only [Bool.and_eq_false_iff, List.all_eq_false, Bool.not_eq_true]

/-- The quiz-question object used by the C4 witness, parameterised by its
`correct_option` value. -/
def c4Question (co : List Char) : JsonVal :=
  .obj [(chars "question_text", .str (chars "Q")),
    (chars "option_a", .str (chars "1")), (chars "option_b", .str (chars "2")),
    (chars "option_c", .str (chars "3")), (chars "option_d", .str (chars "4")),
    (chars "correct_option", .str co),
    (chars "explanation", .str (chars "x"))]

/-- C4, witness: a complete quiz question with `correct_option: "E"` is
rejected, and the same question with `correct_option: "A"` is accepted,
via the main theorem. -/
theorem c4_witness :
    extractQuiz (chars "[\x7b\"question_text\": \"Q\", \"option_a\": \"1\", \"option_b\": \"2\", \"option_c\": \"3\", \"option_d\": \"4\", \"correct_option\": \"E\", \"explanation\": \"x\"\x7d]") =
      .schemaFailure ∧
    extractQuiz (chars "[\x7b\"question_text\": \"Q\", \"option_a\": \"1\", \"option_b\": \"2\", \"option_c\": \"3\", \"option_d\": \"4\", \"correct_option\": \"A\", \"explanation\": \"x\"\x7d]") =
      .success [c4Question (chars "A")] := by
  constructor
  · exact (c4_quiz_required_fields
      (chars "[\x7b\"question_text\": \"Q\", \"option_a\": \"1\", \"option_b\": \"2\", \"option_c\": \"3\", \"option_d\": \"4\", \"correct_option\": \"E\", \"explanation\": \"x\"\x7d]")
      [c4Question (chars "E")] rfl).1 ⟨c4Question (chars "E"), by simp, by decide⟩
  · have h := (c4_quiz_required_fields
      (chars "[\x7b\"question_text\": \"Q\", \"option_a\": \"1\", \"option_b\": \"2\", \"option_c\": \"3\", \"option_d\": \"4\", \"correct_option\": \"A\", \"explanation\": \"x\"\x7d]")
      [c4Question (chars "A")] rfl).2.1
      (by intro q hq; rw [List.mem_singleton] at hq; subst hq; decide)
    simpa using h

/-! ## Claim C5 -/

/-- C5: a normalized payload that parses to the empty JSON array yields a
zero-item success for both extractors, an outcome distinct from both the
parse-failure and the schema-failure outcomes (`flashcards.py` 291-296,
`quizzes.py` 303-308). -/
theorem c5_empty_array_success (t : List Char)
    (hparse : jsonParse t = some (.arr [])) :
    extractFlashcards t = .emptySuccess ∧
    extractQuiz t = .emptySuccess ∧
    (ExtractOutcome.emptySuccess : ExtractOutcome (JsonVal × JsonVal)) ≠ .parseFailure ∧
    (ExtractOutcome.emptySuccess : ExtractOutcome (JsonVal × JsonVal)) ≠ .schemaFailure ∧
    (ExtractOutcome.emptySuccess : ExtractOutcome JsonVal) ≠ .parseFailure ∧
    (ExtractOutcome.emptySuccess : ExtractOutcome JsonVal) ≠ .schemaFailure := by
  refine ⟨?_, ?_, fun h => ExtractOutcome.noConfusion h,
    fun h => ExtractOutcome.noConfusion h, fun h => ExtractOutcome.noConfusion h,
    fun h => ExtractOutcome.noConfusion h⟩
  · unfold extractFlashcards
    rw [hparse]
    rfl
  · unfold extractQuiz
    rw [hparse]
    rfl

/-- C5, witness: `extract(normalize('[]'))` is a zero-item success for
both extractors.  (`'[]'` contains no markdown fence, so normalization is
the escape-repair pass, which leaves it unchanged.) -/
theorem c5_witness :
    extractFlashcards (normalizeText (chars "[]")) = .emptySuccess ∧
    extractQuiz (normalizeText (chars "[]")) = .emptySuccess :=
  ⟨(c5_empty_array_success (normalizeText (chars "[]")) rfl).1,
   (c5_empty_array_success (normalizeText (chars "[]")) rfl).2.1⟩

/-! ## Claim C6 -/

/-- The sequential per-file loop propagates the first failure: when every
file before `f` succeeds and `f`'s AI call raises, the loop raises `f`'s
error and the files after `f` are never reached. -/
lemma processAllFiles_first_error (post : List UploadFileModel)
    (f : UploadFileModel) (e : List Char) (hf : f.aiAnalysis = .error e) :
    ∀ pre : List UploadFileModel, (∀ g ∈ pre, ∃ a, g.aiAnalysis = .ok a) →
      processAllFiles (pre ++ f :: post) =
        .error (500, chars "Failed to process file " ++ f.filename ++ chars ": " ++ e) := by
  intro pre
  induction pre with
  | nil =>
    intro _
    rw [List.nil_append]
    unfold processAllFiles processFileWithGemini
    rw [hf]
  | cons g gs ih =>
    intro hpre
    obtain ⟨a, ha⟩ := hpre g (List.mem_cons_self g gs)
    have ih' := ih fun g' hg' => hpre g' (List.mem_cons_of_mem g hg')
    rw [List.cons_append]
    unfold processAllFiles processFileWithGemini
    rw [ha, ih']

/-- The three files of the C6 scenario: file #2's AI call raises. -/
def c6file1 : UploadFileModel :=
  ⟨chars "f1.pdf", .ok (chars "analysis one"), some (chars "Title One")⟩
def c6file2 : UploadFileModel :=
  ⟨chars "f2.pdf", .error (chars "AI call failed"), none⟩
def c6file3 : UploadFileModel :=
  ⟨chars "f3.pdf", .ok (chars "analysis three"), some (chars "Title Three")⟩

/-- C6, counterexample.  The claim asserts that with 3 uploaded files
where file #2's AI call raises, exactly 2 notes are created, one recorded
error references file #2, and the response indicates success.  The code
has no per-file error handling (`upload.py` 266-269): the whole request
fails with a 500 naming file #2 and ZERO notes are persisted. -/
theorem c6_counterexample :
    uploadFilesUngrouped (chars "user-1") [c6file1, c6file2, c6file3] =
      (.httpError 500 (chars "Failed to process file f2.pdf: AI call failed"), []) ∧
    ([] : List NoteRow).length ≠ 2 ∧
    ∀ msg notes, UploadResponse.httpError 500
        (chars "Failed to process file f2.pdf: AI call failed") ≠
      UploadResponse.ok msg notes := by
  exact ⟨rfl, by decide, fun msg notes h => UploadResponse.noConfusion h⟩

/-- C6, amended: in a per-file (ungrouped) batch of at most 5 files, a
failure processing one file aborts the whole request — it is answered with
the 500 error `"Failed to process file {name}: …"` naming that file, and
no note is persisted, not even for sibling files that had succeeded. -/
theorem c6_upload_failure_aborts_batch (user : List Char)
    (pre post : List UploadFileModel) (f : UploadFileModel) (e : List Char)
    (hpre : ∀ g ∈ pre, ∃ a, g.aiAnalysis = .ok a)
    (hf : f.aiAnalysis = .error e)
    (hlen : (pre ++ f :: post).length ≤ 5) :
    uploadFilesUngrouped user (pre ++ f :: post) =
      (.httpError 500
        (chars "Failed to process file " ++ f.filename ++ chars ": " ++ e), []) := by
  have h5 : ¬ (5 < (pre ++ f :: post).length) := by omega
  have h0 : ¬ ((pre ++ f :: post).length = 0) := by
    simp only [List.length_append, List.length_cons]
    omega
  unfold uploadFilesUngrouped
  rw [if_neg h5, if_neg h0, processAllFiles_first_error post f e hf pre hpre]

/-- C6, witness: the amended theorem applied to the concrete 3-file
scenario. -/
theorem c6_witness :
    uploadFilesUngrouped (chars "user-1") ([c6file1] ++ c6file2 :: [c6file3]) =
      (.httpError 500
        (chars "Failed to process file " ++ c6file2.filename ++ chars ": " ++
          chars "AI call failed"), []) :=
  c6_upload_failure_aborts_batch (chars "user-1") [c6file1] [c6file3] c6file2
    (chars "AI call failed")
    (fun g hg => by
      rw [List.mem_singleton] at hg
      subst hg
      exact ⟨chars "analysis one", rfl⟩)
    rfl (by decide)

/-! ## Claim C7 -/

/-- The database of the C7 scenario: one note owned by `alice`. -/
def c7db : Db :=
  ⟨[⟨chars "n1", chars "alice", chars "Note title", chars "Note body", []⟩],
   [], [], [], []⟩

/-- The context-document reference of the C7 scenario. -/
def c7doc : ContextDocument := ⟨chars "n1", chars "note", chars "My note"⟩

/-- The chat request of the C7 scenario. -/
def c7req : ChatRequestModel := ⟨chars "What?", [], some c7doc⟩

/-- C7, counterexample.  The claim asserts resolution fails with a
NotFound error when the entity is absent or not owned by the caller,
rather than proceeding with substitute text.  In the code
(`chat.py` 64-65, 127-134) the ownership check exists, but its failure
produces a placeholder STRING that the endpoint injects into the prompt
and proceeds — no error response is produced: caller `bob` referencing
`alice`'s note gets a normal streaming chat whose context is
`"Error: note with ID n1 not found"`. -/
theorem c7_counterexample :
    fetchDocumentContent (chars "bob") c7doc c7db =
      chars "Error: note with ID n1 not found" ∧
    chatEndpoint true (chars "bob") c7req c7db =
      .proceeds [⟨chars "user",
        contextTemplate (chars "Error: note with ID n1 not found") (chars "What?")⟩] ∧
    ∀ code detail,
      chatEndpoint true (chars "bob") c7req c7db ≠ .httpError code detail := by
  refine ⟨rfl, rfl, fun code detail h => ?_⟩
  have h2 : chatEndpoint true (chars "bob") c7req c7db =
      .proceeds [⟨chars "user",
        contextTemplate (chars "Error: note with ID n1 not found") (chars "What?")⟩] := rfl
  rw [h2] at h
  exact ChatOutcome.noConfusion h

/-- C7, amended: resolving a chat context document filters by the
caller's identity (so a document owned by another user counts as absent),
and when the filtered select is empty `fetch_document_content` returns the
`"Error: {type} with ID {id} not found"` placeholder string; the chat
endpoint then proceeds to the provider with that placeholder injected as
the document content instead of failing with a NotFound error. -/
theorem c7_missing_doc_placeholder (user msg : List Char)
    (hist : List ChatMessage) (doc : ContextDocument) (db : Db)
    (htype : doc.type = chars "note" ∨ doc.type = chars "quiz" ∨
      doc.type = chars "flashcard_set")
    (habsent : selectByIdAndUser
      (if doc.type = chars "note" then db.notes
       else if doc.type = chars "quiz" then db.quiz_sets
       else db.flashcard_sets) doc.id user = []) :
    fetchDocumentContent user doc db = notFoundText doc ∧
    chatEndpoint true user ⟨msg, hist, some doc⟩ db =
      .proceeds (hist ++ [⟨chars "user",
        contextTemplate (fetchDocumentContent user doc db) msg⟩]) := by
  refine ⟨?_, rfl⟩
  unfold fetchDocumentContent
  rcases htype with h | h | h
  · rw [if_pos h] at habsent ⊢
    rw [habsent]
  · have hn : ¬ (doc.type = chars "note") := by rw [h]; decide
    rw [if_neg hn, if_pos h] at habsent ⊢
    rw [habsent]
  · have hn : ¬ (doc.type = chars "note") := by rw [h]; decide
    have hq : ¬ (doc.type = chars "quiz") := by rw [h]; decide
    rw [if_neg hn, if_neg hq] at habsent ⊢
    rw [if_pos h, habsent]

/-- C7, witness: the amended theorem applied to the concrete scenario
(caller `bob`, note owned by `alice`). -/
theorem c7_witness :
    fetchDocumentContent (chars "bob") c7doc c7db = notFoundText c7doc ∧
    chatEndpoint true (chars "bob") ⟨chars "What?", [], some c7doc⟩ c7db =
      .proceeds ([] ++ [⟨chars "user",
        contextTemplate (fetchDocumentContent (chars "bob") c7doc c7db)
          (chars "What?")⟩]) :=
  c7_missing_doc_placeholder (chars "bob") (chars "What?") [] c7doc c7db
    (Or.inl rfl) rfl

/-! ## Claim C8 -/

/-- C8: deleting an owned note attempts all three delete steps in order;
when the quiz-set sub-step reports an error while the other two succeed,
the flashcard sets of the note and the note itself are still deleted, the
quiz sets are left untouched, and the response is a success carrying a
non-null `quizDeleteError` (`notes.py` 136-187). -/
theorem c8_cascade_delete_nonfatal (db : Db) (note_id user e : List Char)
    (note qrow frow : Row)
    (hnote : selectByIdAndUser db.notes note_id user = [note])
    (_hq : qrow ∈ db.quiz_sets) (_hqn : qrow.note_id = note_id)
    (_hqu : qrow.user_id = user)
    (_hf : frow ∈ db.flashcard_sets) (_hfn : frow.note_id = note_id)
    (_hfu : frow.user_id = user) :
    (deleteNote note_id user db ⟨some e, none, none⟩).1 =
      .okWithErrors (some e) none ∧
    (deleteNote note_id user db ⟨some e, none, none⟩).2.2 =
      [.delQuizSets, .delFlashcardSets, .delNoteRow] ∧
    (∀ r ∈ (deleteNote note_id user db ⟨some e, none, none⟩).2.1.notes,
      ¬ (r.id = note_id ∧ r.user_id = user)) ∧
    (∀ r ∈ (deleteNote note_id user db ⟨some e, none, none⟩).2.1.flashcard_sets,
      ¬ (r.note_id = note_id ∧ r.user_id = user)) ∧
    (deleteNote note_id user db ⟨some e, none, none⟩).2.1.quiz_sets =
      db.quiz_sets := by
  have hsingle : selectSingle db.notes note_id user = some note := by
    unfold selectSingle
    rw [hnote]
  have hdel : deleteNote note_id user db ⟨some e, none, none⟩ =
      (.okWithErrors (some e) none,
       { db with
          notes := db.notes.filter fun r => ! (r.id == note_id && r.user_id == user),
          flashcard_sets := db.flashcard_sets.filter fun r =>
            ! (r.note_id == note_id && r.user_id == user) },
       [.delQuizSets, .delFlashcardSets, .delNoteRow]) := by
    unfold deleteNote
    rw [hsingle]
    rfl
  rw [hdel]
  refine ⟨rfl, rfl, ?_, ?_, rfl⟩
  · intro r hr hcontra
    rw [List.mem_filter] at hr
    have h2 := hr.2
    rw [hcontra.1, hcontra.2] at h2
    simp at h2
  · intro r hr hcontra
    rw [List.mem_filter] at hr
    have h2 := hr.2
    rw [hcontra.1, hcontra.2] at h2
    simp at h2

/-- The rows of the C8 scenario: a note owning one quiz set and one
flashcard set, all owned by user `u1`. -/
def c8note : Row := ⟨chars "n1", chars "u1", chars "T", chars "C", []⟩
def c8quiz : Row := ⟨chars "q1", chars "u1", chars "Quiz T", [], chars "n1"⟩
def c8flash : Row := ⟨chars "s1", chars "u1", chars "Flash T", [], chars "n1"⟩
def c8db : Db := ⟨[c8note], [c8quiz], [c8flash], [], []⟩

/-- C8, witness: the theorem applied to the concrete one-note database
with a failing quiz-set delete. -/
theorem c8_witness :
    (deleteNote (chars "n1") (chars "u1") c8db ⟨some (chars "boom"), none, none⟩).1 =
      .okWithErrors (some (chars "boom")) none ∧
    (deleteNote (chars "n1") (chars "u1") c8db ⟨some (chars "boom"), none, none⟩).2.2 =
      [.delQuizSets, .delFlashcardSets, .delNoteRow] ∧
    (deleteNote (chars "n1") (chars "u1") c8db
      ⟨some (chars "boom"), none, none⟩).2.1.quiz_sets = c8db.quiz_sets :=
  ⟨(c8_cascade_delete_nonfatal c8db (chars "n1") (chars "u1") (chars "boom")
      c8note c8quiz c8flash rfl (by simp [c8db]) rfl rfl (by simp [c8db]) rfl rfl).1,
   (c8_cascade_delete_nonfatal c8db (chars "n1") (chars "u1") (chars "boom")
      c8note c8quiz c8flash rfl (by simp [c8db]) rfl rfl (by simp [c8db]) rfl rfl).2.1,
   (c8_cascade_delete_nonfatal c8db (chars "n1") (chars "u1") (chars "boom")
      c8note c8quiz c8flash rfl (by simp [c8db]) rfl rfl (by simp [c8db]) rfl rfl).2.2.2.2⟩

/-! ## Claim C9 -/

/-- Content extraction on a well-formed delta chunk yields its content. -/
lemma extractDeltaContent_mkChunk (c : JsonVal) :
    extractDeltaContent (mkChunk c) = some c := rfl

/-- Dropping the `data: ` marker from a marked line leaves the payload. -/
lemma drop_six_marker (d : List Char) : (chars "data: " ++ d).drop 6 = d := by
  have h6 : (chars "data: ").length = 6 := rfl
  rw [← h6, List.drop_left]

/-- C9: (1) for a provider stream of well-formed content delta chunks
followed by the `[DONE]` token, the relay emits exactly the chunk contents
as deltas, in order, followed by the end-of-stream marker; (2) a line
whose `data:` payload is not parseable JSON is skipped without affecting
the rest of the relayed stream (`chat.py` 233-258). -/
theorem c9_stream_relay :
    (∀ (ds : List (List Char)) (cs : List JsonVal),
      List.Forall₂ (fun d c => jsonParse d = some (mkChunk c) ∧
        pyStrip (chars "data: " ++ d) = chars "data: " ++ d) ds cs →
      relayLines ((ds.map fun d => chars "data: " ++ d) ++ [chars "data: [DONE]"]) =
        cs.map StreamEvent.delta ++ [StreamEvent.done]) ∧
    (∀ (pre rest : List (List Char)) (bad : List Char),
      (chars "data: ").isPrefixOf (pyStrip bad) = true →
      (pyStrip bad).drop 6 ≠ chars "[DONE]" →
      jsonParse ((pyStrip bad).drop 6) = none →
      relayLines (pre ++ bad :: rest) = relayLines (pre ++ rest)) := by
  constructor
  · intro ds cs hforall
    induction hforall with
    | nil => rfl
    | @cons d c ds' cs' hdc htail ih =>
      obtain ⟨hparse, hstrip⟩ := hdc
      rw [List.map_cons, List.cons_append]
      rw [relayLines.eq_def]
      simp only []
      rw [hstrip]
      rw [if_pos (isPrefixOf_append_self (chars "data: ") d), drop_six_marker]
      have hnone : jsonParse (chars "[DONE]") = none := rfl
      have hne : d ≠ chars "[DONE]" := by
        intro he
        rw [he, hnone] at hparse
        exact Option.noConfusion hparse
      rw [if_neg hne, hparse]
      simp only [extractDeltaContent_mkChunk]
      rw [List.map_cons, List.cons_append, ih]
  · intro pre rest bad hbad1 hbad2 hbad3
    induction pre with
    | nil =>
      rw [List.nil_append, List.nil_append, relayLines.eq_def]
      simp only []
      rw [if_pos hbad1, if_neg hbad2, hbad3]
    | cons p ps ih =>
      rw [List.cons_append, List.cons_append, relayLines.eq_def]
      conv_rhs => rw [relayLines.eq_def]
      simp only []
      by_cases hp : (chars "data: ").isPrefixOf (pyStrip p) = true
      · rw [if_pos hp, if_pos hp]
        by_cases hdone : (pyStrip p).drop 6 = chars "[DONE]"
        · rw [if_pos hdone, if_pos hdone]
        · rw [if_neg hdone, if_neg hdone]
          cases hj : jsonParse ((pyStrip p).drop 6) with
          | none => exact ih
          | some v =>
            cases he : extractDeltaContent v with
            | none => simp only [he]
            | some c =>
              simp only [he]
              rw [ih]
      · rw [if_neg hp, if_neg hp]
        exact ih

/-- A well-formed provider payload carrying the string content `s`. -/
def c9payload (s : String) : List Char :=
  chars ("\x7b\"choices\":[\x7b\"delta\":\x7b\"content\":\"" ++ s ++ "\"\x7d\x7d]\x7d")

/-- C9, witness: three well-formed chunks then `[DONE]` relay to three
deltas in order then the end marker, and a non-JSON data line is skipped
without affecting the rest of the stream. -/
theorem c9_witness :
    relayLines (([c9payload "a", c9payload "b", c9payload "c"].map
        fun d => chars "data: " ++ d) ++ [chars "data: [DONE]"]) =
      [StreamEvent.delta (.str (chars "a")), StreamEvent.delta (.str (chars "b")),
       StreamEvent.delta (.str (chars "c")), StreamEvent.done] ∧
    relayLines ([] ++ chars "data: notjson" :: [chars "data: [DONE]"]) =
      relayLines ([] ++ [chars "data: [DONE]"]) := by
  constructor
  · have h := c9_stream_relay.1 [c9payload "a", c9payload "b", c9payload "c"]
      [.str (chars "a"), .str (chars "b"), .str (chars "c")]
      (List.Forall₂.cons ⟨rfl, rfl⟩ (List.Forall₂.cons ⟨rfl, rfl⟩
        (List.Forall₂.cons ⟨rfl, rfl⟩ List.Forall₂.nil)))
    simpa using h
  · exact c9_stream_relay.2 [] [chars "data: [DONE]"] (chars "data: notjson")
      rfl (by decide) rfl

/-! ## Claim C10 -/

/-- C10: with the provider key configured, a flashcard-create or
quiz-create request whose body `userId` differs from the authenticated
`X-User-Id` identity is rejected with a 403 "User ID mismatch" and the
recorded effect trace is empty — no note fetch, no AI call, and no
datastore write happened (`flashcards.py` 189-191, `quizzes.py` 198-200). -/
theorem c10_user_mismatch_rejected (reqNoteId reqUserId userId : List Char)
    (db : Db) (aiText : List Char) (rpcOk : Bool)
    (hne : reqUserId ≠ userId) :
    createFlashcards true reqNoteId reqUserId userId db aiText rpcOk =
      (.httpError 403 (chars "User ID mismatch"), []) ∧
    createQuiz true reqNoteId reqUserId userId db aiText rpcOk =
      (.httpError 403 (chars "User ID mismatch"), []) := by
  refine ⟨?_, ?_⟩
  · unfold createFlashcards
    rw [if_neg (by simp), if_pos hne]
  · unfold createQuiz
    rw [if_neg (by simp), if_pos hne]

/-- C10, witness: the theorem applied to a request whose body says
`alice` while the header identity is `bob`. -/
theorem c10_witness :
    createFlashcards true (chars "n1") (chars "alice") (chars "bob")
      ⟨[], [], [], [], []⟩ (chars "irrelevant") true =
      (.httpError 403 (chars "User ID mismatch"), []) ∧
    createQuiz true (chars "n1") (chars "alice") (chars "bob")
      ⟨[], [], [], [], []⟩ (chars "irrelevant") true =
      (.httpError 403 (chars "User ID mismatch"), []) :=
  c10_user_mismatch_rejected (chars "n1") (chars "alice") (chars "bob")
    ⟨[], [], [], [], []⟩ (chars "irrelevant") true (by decide)

end SuperNotes
